import Mathlib

/-!
Shallow embedding of the Codeforces battle bot (src/bot.py).

Modelling conventions:
- Python dictionaries keyed by chat id (ACTIVE_BATTLES, PENDING_CANCELS)
  are modelled as functions Nat → Option _.
- The per-battle participants dictionary is an association list
  List (Nat × String) from user id to handle.
- The SQLite points table for one chat is a function Nat → PointsRow.
- Problem ratings, contest ids etc. use Option to model absent JSON keys
  (dict.get returning None); a missing or non-integer rating is none.
- Asynchronous handlers are modelled as pure state-passing functions.
  The one place where a suspension point is semantically relevant
  (the await of cf_user_status inside handle_finished_callback, which sits
  between the round_winner check and the round_winner assignment, bot.py
  lines 616-634) is additionally modelled as a two-phase task stepped by an
  explicit interleaving scheduler (race_step / race_run below).
- random.shuffle is an external source of nondeterminism; it is modelled as
  a function parameter, indexed by call number in the per-round-target
  selection loop so that distinct shuffle calls may produce distinct orders.
-/

inductive BattleStatus
  | joining
  | running
  | cancelled
deriving DecidableEq

structure Problem where
  contestId : Option Int
  index : Option String
  name : Option String
  rating : Option Int
deriving DecidableEq

/-- The key f-string built from contestId and index (bot.py line 474/489). -/
abbrev ProbKey := Option Int × Option String

def keyOf (p : Problem) : ProbKey := (p.contestId, p.index)

structure Submission where
  problem : Problem
  verdict : Option String
deriving DecidableEq

structure Battle where
  creator : Nat
  participants : List (Nat × String)
  numProblems : Nat
  ratings : List Int
  selectedProblems : List Problem
  round : Nat
  status : BattleStatus
  roundWinner : Option (Nat × String)
  roundFinished : Bool
  currentProblem : Option Problem
deriving DecidableEq

abbrev Registry := Nat → Option Battle

abbrev Pending := Nat → Option Nat

structure PointsRow where
  pts : Int
  battles : Nat
  firstSolves : Nat
deriving DecidableEq

abbrev PointsDB := Nat → PointsRow

/-- bot.py lines 218-225. -/
def POINT_MAP : List ((Int × Int) × Int) :=
  [((800, 899), 1), ((900, 999), 1), ((1000, 1099), 2), ((1100, 1199), 2),
   ((1200, 1299), 3), ((1300, 1399), 3), ((1400, 1499), 4), ((1500, 1599), 5),
   ((1600, 1699), 6), ((1700, 1799), 7), ((1800, 1899), 8), ((1900, 1999), 10),
   ((2000, 2099), 12), ((2100, 2199), 15), ((2200, 2299), 18), ((2300, 2399), 22),
   ((2400, 2499), 27), ((2500, 2599), 33), ((2600, 2699), 40), ((2700, 2799), 48),
   ((2800, 2899), 58), ((2900, 2999), 70), ((3000, 3099), 85)]

/-- The loop body of rating_to_points (bot.py lines 231-234). -/
def ratingLookup : List ((Int × Int) × Int) → Int → Int
  | [], _ => 0
  | ((a, b), v) :: rest, r => if a ≤ r ∧ r ≤ b then v else ratingLookup rest r

/-- bot.py lines 227-234; the argument is none when the Python value is not
an int (the isinstance check returns 0 in that case). -/
def rating_to_points : Option Int → Int
  | none => 0
  | some r => ratingLookup POINT_MAP r

/-- bot.py lines 116-133 (the two UPDATE statements of add_points). -/
def add_points (db : PointsDB) (uid : Nat) (p : Int) (first_solve : Bool) : PointsDB :=
  fun u =>
    if u = uid then
      if first_solve then
        { db u with pts := (db u).pts + p, firstSolves := (db u).firstSolves + 1 }
      else
        { db u with pts := (db u).pts + p }
    else db u

def bumpBattles (db : PointsDB) (uid : Nat) : PointsDB :=
  fun u => if u = uid then { db u with battles := (db u).battles + 1 } else db u

/-- bot.py lines 135-143: one UPDATE per user id in the list. -/
def increment_battles (db : PointsDB) (uids : List Nat) : PointsDB :=
  uids.foldl bumpBattles db

/-- bot.py lines 237-256.  Arguments are modelled as already-parsed integers;
a non-numeric token is a further rejection path not claimed about here. -/
def parse_create_args (args : List Int) : Except String (Nat × List Int) :=
  match args with
  | [] => Except.error "missing args"
  | num :: rest =>
    if args.length < 2 then Except.error "need at least 2 arguments"
    else if num < 1 ∨ 10 < num then Except.error "number of problems must be 1-10"
    else if rest.any (fun r => decide (r < 800 ∨ 3500 < r)) then
      Except.error "ratings must be 800-3500"
    else Except.ok (num.toNat, rest)

inductive CreateReply
  | alreadyActive
  | noHandle
  | invalidArgs (msg : String)
  | created
deriving DecidableEq

/-- The state dict built at bot.py lines 383-395. -/
def initialBattle (uid : Nat) (handle : String) (num : Nat) (ratings : List Int) : Battle :=
  { creator := uid, participants := [(uid, handle)], numProblems := num,
    ratings := ratings, selectedProblems := [], round := 0,
    status := BattleStatus.joining, roundWinner := none, roundFinished := false,
    currentProblem := none }

/-- bot.py lines 358-412: the user argument is the registered handle of the
caller, if any (get_user result). -/
def cmd_createbattle (reg : Registry) (chat uid : Nat) (user : Option String)
    (args : List Int) : Registry × CreateReply :=
  if (reg chat).isSome then (reg, CreateReply.alreadyActive)
  else
    match user with
    | none => (reg, CreateReply.noHandle)
    | some handle =>
      match parse_create_args args with
      | Except.error e => (reg, CreateReply.invalidArgs e)
      | Except.ok (num, ratings) =>
        (fun c => if c = chat then some (initialBattle uid handle num ratings) else reg c,
         CreateReply.created)

inductive JoinFinishOutcome
  | noBattle
  | cancelledInsufficient
  | started
deriving DecidableEq

/-- The final block of battle_join_countdown after the tick loop
(bot.py lines 442-457). -/
def battle_join_finish (reg : Registry) (chat : Nat) : Registry × JoinFinishOutcome :=
  match reg chat with
  | none => (reg, JoinFinishOutcome.noBattle)
  | some st =>
    if st.participants.length < 2 then
      (fun c => if c = chat then none else reg c, JoinFinishOutcome.cancelledInsufficient)
    else
      (fun c => if c = chat then some { st with status := BattleStatus.running } else reg c,
       JoinFinishOutcome.started)

/-- isinstance(p.get("rating"), int) and lo <= p["rating"] <= hi. -/
def inWindow (lo hi : Int) (p : Problem) : Bool :=
  match p.rating with
  | some r => decide (lo ≤ r ∧ r ≤ hi)
  | none => false

/-- The attempted set built at bot.py lines 466-475; an asyncio.gather entry
that was an exception is none (the isinstance(subs, list) test skips it).
The Python set is modelled as a list with membership semantics. -/
def buildAttempted : List (Option (List Submission)) → List ProbKey
  | [] => []
  | some subs :: rest => subs.map (fun s => keyOf s.problem) ++ buildAttempted rest
  | none :: rest => buildAttempted rest

/-- The range-mode loop of select_problems_for_battle (bot.py lines 488-493). -/
def rangeLoop (attempted : List ProbKey) (num : Nat) :
    List Problem → List Problem → List Problem
  | [], selected => selected
  | p :: rest, selected =>
    if keyOf p ∈ attempted then rangeLoop attempted num rest selected
    else
      let selected2 := selected ++ [p]
      if num ≤ selected2.length then selected2
      else rangeLoop attempted num rest selected2

/-- The inner scan of the per-round-target mode (bot.py lines 501-506). -/
def firstUnattempted (attempted : List ProbKey) : List Problem → Option Problem
  | [] => none
  | p :: rest => if keyOf p ∈ attempted then firstUnattempted attempted rest else some p

/-- The per-round-target loop (bot.py lines 496-512); k counts shuffle calls. -/
def targetLoop (problems : List Problem) (attempted : List ProbKey) (num : Nat)
    (shuffle : Nat → List Problem → List Problem) :
    List Int → Nat → List Problem → List Problem
  | [], _, selected => selected
  | r :: rs, k, selected =>
    let pool := shuffle k (problems.filter (inWindow (r - 50) (r + 50)))
    let selected2 :=
      match firstUnattempted attempted pool with
      | some p => selected ++ [p]
      | none => selected
    if num ≤ selected2.length then selected2
    else targetLoop problems attempted num shuffle rs (k + 1) selected2

def listMin : List Int → Int
  | [] => 0
  | a :: rest => rest.foldl min a

def listMax : List Int → Int
  | [] => 0
  | a :: rest => rest.foldl max a

/-- bot.py lines 459-515. -/
def select_problems_for_battle (problems : List Problem)
    (results : List (Option (List Submission))) (ratings : List Int) (num : Nat)
    (shuffle : Nat → List Problem → List Problem) : List Problem :=
  if problems = [] then []
  else
    let attempted := buildAttempted results
    if ratings.length = 2 ∧ 2 < num then
      let mn := listMin ratings
      let mx := listMax ratings
      rangeLoop attempted num
        (shuffle 0 (problems.filter (inWindow (mn - 50) (mx + 50)))) []
    else targetLoop problems attempted num shuffle ratings 0 []

inductive RunEntryOutcome
  | noBattle
  | aborted
  | proceeded
deriving DecidableEq

/-- The entry portion of run_battle (bot.py lines 517-541): store the selector
result, abort when it is empty or short, otherwise increment battle counts. -/
def run_battle_entry (reg : Registry) (db : PointsDB) (chat : Nat)
    (selected : List Problem) : Registry × PointsDB × RunEntryOutcome :=
  match reg chat with
  | none => (reg, db, RunEntryOutcome.noBattle)
  | some st =>
    let st1 := { st with selectedProblems := selected }
    if selected.isEmpty ∨ selected.length < st.numProblems then
      (fun c => if c = chat then none else reg c, db, RunEntryOutcome.aborted)
    else
      (fun c => if c = chat then some st1 else reg c,
       increment_battles db (st1.participants.map Prod.fst), RunEntryOutcome.proceeded)

/-- Outcome of the wait loop at bot.py lines 552-556: the event that set
round_finished (a winning claim, a creator round skip) or a battle
cancellation observed by the status check. -/
inductive RoundEvent
  | won (uid : Nat) (pts : Int)
  | skipped
  | cancelled
deriving DecidableEq

structure Trace where
  posted : List Nat
  awards : List (Nat × Nat × Int)
  finalized : Bool
deriving DecidableEq

/-- The round loop of run_battle (bot.py lines 544-573): post round idx, wait,
stop without finalizing when cancelled, otherwise continue; finalize after the
last round.  awards records (round, uid, pts) for rounds resolved by a win. -/
def run_rounds_aux (events : Nat → RoundEvent) : List Problem → Nat → Trace
  | [], _ => { posted := [], awards := [], finalized := true }
  | _ :: rest, idx =>
    match events idx with
    | RoundEvent.cancelled => { posted := [idx], awards := [], finalized := false }
    | RoundEvent.skipped =>
      let t := run_rounds_aux events rest (idx + 1)
      { posted := idx :: t.posted, awards := t.awards, finalized := t.finalized }
    | RoundEvent.won uid pts =>
      let t := run_rounds_aux events rest (idx + 1)
      { posted := idx :: t.posted, awards := (idx, uid, pts) :: t.awards,
        finalized := t.finalized }

def run_rounds (events : Nat → RoundEvent) (problems : List Problem) : Trace :=
  run_rounds_aux events problems 1

inductive FinishedResult
  | noBattle
  | notParticipant
  | alreadyWon
  | errored
  | won (handle : String) (pts : Int)
  | noAC
deriving DecidableEq

def lookupHandle (ps : List (Nat × String)) (uid : Nat) : Option String :=
  (ps.find? (fun q => q.1 == uid)).map Prod.snd

/-- The submission test at bot.py lines 625-630. -/
def matchesProblem (cur : Problem) (s : Submission) : Bool :=
  s.problem.contestId == cur.contestId && s.problem.index == cur.index
    && s.verdict == some "OK"

/-- bot.py lines 607-638, as the sequential function it is when claims are
processed one at a time.  subs is the cf_user_status result for the claiming
user.  currentProblem = none models the KeyError raised by
st["current_problem"] before any round was posted (caught by cb_query). -/
def handle_finished_callback (battle : Option Battle) (db : PointsDB)
    (uid round_idx : Nat) (subs : List Submission) :
    Option Battle × PointsDB × FinishedResult :=
  match battle with
  | none => (none, db, FinishedResult.noBattle)
  | some st =>
    match lookupHandle st.participants uid with
    | none => (some st, db, FinishedResult.notParticipant)
    | some handle =>
      if st.roundWinner.isSome then (some st, db, FinishedResult.alreadyWon)
      else
        match st.currentProblem with
        | none => (some st, db, FinishedResult.errored)
        | some cur =>
          match subs.find? (matchesProblem cur) with
          | some _ =>
            let pts := rating_to_points (some (cur.rating.getD 0))
            (some { st with roundWinner := some (uid, handle), roundFinished := true },
             add_points db uid pts true, FinishedResult.won handle pts)
          | none => (some st, db, FinishedResult.noAC)

inductive CancelCmdReply
  | noActive
  | notCreator
  | promptSent
deriving DecidableEq

/-- bot.py lines 659-684. -/
def cmd_cancelbattle (reg : Registry) (pending : Pending) (chat uid msg_id : Nat) :
    Registry × Pending × CancelCmdReply :=
  match reg chat with
  | none => (reg, pending, CancelCmdReply.noActive)
  | some st =>
    if st.creator = uid then
      (reg, fun c => if c = chat then some msg_id else pending c,
       CancelCmdReply.promptSent)
    else (reg, pending, CancelCmdReply.notCreator)

/-- bot.py lines 807-823.  uid is the clicking user; the source never reads
it and never consults PENDING_CANCELS before acting.  The returned Option
Battle is the popped battle object after its in-place mutation (status and
round_finished), which the round-supervisor task still references. -/
def handle_confirm_cancel (reg : Registry) (pending : Pending) (chat uid : Nat) :
    Registry × Pending × Option Battle :=
  match reg chat with
  | none => (reg, pending, none)
  | some st =>
    let st1 : Battle := { st with status := BattleStatus.cancelled, roundFinished := true }
    (fun c => if c = chat then none else reg c,
     fun c => if c = chat then none else pending c, some st1)

/-- bot.py lines 825-831. -/
def handle_no_cancel (reg : Registry) (pending : Pending) (chat : Nat) :
    Registry × Pending :=
  (reg, fun c => if c = chat then none else pending c)

/-- Program counter of one concurrent handle_finished_callback invocation.
ready is before the entry checks; fetched is the resumption point after the
await of cf_user_status (bot.py line 622). -/
inductive RacePC
  | ready
  | fetched
  | doneNotParticipant
  | doneAlready
  | doneWon
  | doneNoAC
deriving DecidableEq

structure RaceTask where
  uid : Nat
  handle : String
  hasAC : Bool
  pc : RacePC
deriving DecidableEq

structure RaceState where
  roundWinner : Option (Nat × String)
  roundFinished : Bool
  awards : List (Nat × Int)
deriving DecidableEq

/-- One atomic segment of handle_finished_callback between suspension points.
Segment 1 (pc = ready): the participant and round_winner checks, bot.py lines
613-617, then suspend on cf_user_status.  Segment 2 (pc = fetched): the scan
of the fetched submissions and, on a hit, the round_winner assignment and the
add_points award, bot.py lines 624-636 — with no re-check of round_winner. -/
def race_step (participants : List (Nat × String)) (pts : Int)
    (s : RaceState) (t : RaceTask) : RaceState × RaceTask :=
  match t.pc with
  | RacePC.ready =>
    match lookupHandle participants t.uid with
    | none => (s, { t with pc := RacePC.doneNotParticipant })
    | some _ =>
      if s.roundWinner.isSome then (s, { t with pc := RacePC.doneAlready })
      else (s, { t with pc := RacePC.fetched })
  | RacePC.fetched =>
    if t.hasAC then
      ({ roundWinner := some (t.uid, t.handle), roundFinished := true,
         awards := s.awards ++ [(t.uid, pts)] },
       { t with pc := RacePC.doneWon })
    else (s, { t with pc := RacePC.doneNoAC })
  | _ => (s, t)

/-- Run two concurrent claim tasks under a schedule; true steps the first. -/
def race_run (participants : List (Nat × String)) (pts : Int) :
    List Bool → RaceState × RaceTask × RaceTask → RaceState × RaceTask × RaceTask
  | [], cfg => cfg
  | b :: rest, (s, t1, t2) =>
    if b then
      let r := race_step participants pts s t1
      race_run participants pts rest (r.1, r.2, t2)
    else
      let r := race_step participants pts s t2
      race_run participants pts rest (r.1, t1, r.2)

/-- The band table as worded in the specification (100-wide bands 800-3099
with the fixed values 1,1,2,2,3,3,4,5,6,7,8,10,12,15,18,22,27,33,40,48,58,
70,85; everything else, including a missing or non-integer rating, is 0).
Written from the words of the spec, to be compared with rating_to_points. -/
def specPointsFor : Option Int → Int
  | none => 0
  | some r =>
    if 800 ≤ r ∧ r ≤ 899 then 1
    else if 900 ≤ r ∧ r ≤ 999 then 1
    else if 1000 ≤ r ∧ r ≤ 1099 then 2
    else if 1100 ≤ r ∧ r ≤ 1199 then 2
    else if 1200 ≤ r ∧ r ≤ 1299 then 3
    else if 1300 ≤ r ∧ r ≤ 1399 then 3
    else if 1400 ≤ r ∧ r ≤ 1499 then 4
    else if 1500 ≤ r ∧ r ≤ 1599 then 5
    else if 1600 ≤ r ∧ r ≤ 1699 then 6
    else if 1700 ≤ r ∧ r ≤ 1799 then 7
    else if 1800 ≤ r ∧ r ≤ 1899 then 8
    else if 1900 ≤ r ∧ r ≤ 1999 then 10
    else if 2000 ≤ r ∧ r ≤ 2099 then 12
    else if 2100 ≤ r ∧ r ≤ 2199 then 15
    else if 2200 ≤ r ∧ r ≤ 2299 then 18
    else if 2300 ≤ r ∧ r ≤ 2399 then 22
    else if 2400 ≤ r ∧ r ≤ 2499 then 27
    else if 2500 ≤ r ∧ r ≤ 2599 then 33
    else if 2600 ≤ r ∧ r ≤ 2699 then 40
    else if 2700 ≤ r ∧ r ≤ 2799 then 48
    else if 2800 ≤ r ∧ r ≤ 2899 then 58
    else if 2900 ≤ r ∧ r ≤ 2999 then 70
    else if 3000 ≤ r ∧ r ≤ 3099 then 85
    else 0

lemma rating_to_points_eq_spec (r : Option Int) :
    rating_to_points r = specPointsFor r := by
  cases r with
  | none => rfl
  | some r =>
    simp only [rating_to_points, specPointsFor, POINT_MAP, ratingLookup]

lemma ratingLookup_zero_of_bands_miss (r : Int) (h : r < 800 ∨ 3100 ≤ r) :
    ∀ l : List ((Int × Int) × Int),
      (∀ e ∈ l, 800 ≤ e.1.1 ∧ e.1.2 ≤ 3099) → ratingLookup l r = 0 := by
  intro l
  induction l with
  | nil => intro _; rfl
  | cons e rest ih =>
    intro hl
    obtain ⟨⟨a, b⟩, v⟩ := e
    have h1 := hl ((a, b), v) (List.mem_cons_self _ _)
    rw [ratingLookup, if_neg]
    · exact ih fun e he => hl e (List.mem_cons_of_mem _ he)
    · simp only at h1
      omega

lemma rating_to_points_out_of_band (r : Int) (h : r < 800 ∨ 3100 ≤ r) :
    rating_to_points (some r) = 0 := by
  exact ratingLookup_zero_of_bands_miss r h POINT_MAP (by decide)

/-- C4: the points function is total: it equals, for every integer rating and
also for a missing/non-integer rating, the fixed band table written from the
spec (bands 800-899 ... 3000-3099 with values 1,1,2,2,3,3,4,5,6,7,8,10,12,15,
18,22,27,33,40,48,58,70,85, and 0 outside all bands), never failing. -/
theorem C4_points_band_table : ∀ r : Option Int, rating_to_points r = specPointsFor r :=
  rating_to_points_eq_spec

lemma increment_battles_cons (db : PointsDB) (x : Nat) (xs : List Nat) :
    increment_battles db (x :: xs) = increment_battles (bumpBattles db x) xs := rfl

lemma increment_battles_battles (l : List Nat) :
    ∀ (db : PointsDB) (u : Nat),
      (increment_battles db l u).battles = (db u).battles + l.count u := by
  induction l with
  | nil => intro db u; simp [increment_battles, List.count_nil]
  | cons x xs ih =>
    intro db u
    rw [increment_battles_cons, ih]
    by_cases hux : u = x
    · subst hux
      simp [bumpBattles, List.count_cons]
      omega
    · simp [bumpBattles, hux, List.count_cons, Ne.symm hux]

lemma increment_battles_not_mem (l : List Nat) :
    ∀ (db : PointsDB) (u : Nat), u ∉ l → increment_battles db l u = db u := by
  induction l with
  | nil => intro db u _; rfl
  | cons x xs ih =>
    intro db u hu
    have hne : u ≠ x := fun he => hu (he ▸ List.mem_cons_self x xs)
    rw [increment_battles_cons, ih _ u (fun h => hu (List.mem_cons_of_mem _ h))]
    simp [bumpBattles, hne]

/-- C5: when the join timer elapses, the battle transitions to Running exactly
when at least 2 participants joined; with fewer it is deregistered with the
insufficient-participants outcome and never enters Running. -/
theorem C5_join_timer_gate (reg : Registry) (chat : Nat) (st : Battle)
    (hreg : reg chat = some st) :
    ((∃ st2, (battle_join_finish reg chat).1 chat = some st2
        ∧ st2.status = BattleStatus.running) ↔ 2 ≤ st.participants.length)
    ∧ (st.participants.length < 2 →
        (battle_join_finish reg chat).1 chat = none
        ∧ (battle_join_finish reg chat).2 = JoinFinishOutcome.cancelledInsufficient)
    ∧ (2 ≤ st.participants.length →
        (battle_join_finish reg chat).1 chat
          = some { st with status := BattleStatus.running }
        ∧ (battle_join_finish reg chat).2 = JoinFinishOutcome.started) := by
  unfold battle_join_finish
  rw [hreg]
  by_cases hlt : st.participants.length < 2
  · refine ⟨?_, fun _ => by simp [hlt], fun h2 => absurd hlt (by omega)⟩
    simp only [hlt, if_true]
    constructor
    · rintro ⟨st2, hst2, -⟩
      simp at hst2
    · intro h2; omega
  · refine ⟨?_, fun h => absurd h hlt, fun _ => by simp [hlt]⟩
    simp only [hlt, if_false]
    constructor
    · intro _; omega
    · intro _
      exact ⟨{ st with status := BattleStatus.running }, by simp, rfl⟩

def exBattle2 : Battle :=
  { creator := 1, participants := [(1, "alice"), (2, "bob")], numProblems := 3,
    ratings := [1200, 1300, 1400], selectedProblems := [], round := 0,
    status := BattleStatus.joining, roundWinner := none, roundFinished := false,
    currentProblem := none }

def reg2 : Registry := fun c => if c = 7 then some exBattle2 else none

theorem C5_join_timer_gate_witness :
    reg2 7 = some exBattle2
    ∧ ∃ st2, (battle_join_finish reg2 7).1 7 = some st2
        ∧ st2.status = BattleStatus.running := by
  refine ⟨rfl, ?_⟩
  exact (C5_join_timer_gate reg2 7 exBattle2 rfl).1.mpr (by decide)

/-- C6: on Running entry, a short selector result deregisters the battle and
increments no battle count; otherwise every participant's battle count is
incremented exactly once (non-participants untouched). -/
theorem C6_running_entry (reg : Registry) (db : PointsDB) (chat : Nat)
    (selected : List Problem) (st : Battle)
    (hreg : reg chat = some st)
    (hnum : 1 ≤ st.numProblems)
    (hnodup : (st.participants.map Prod.fst).Nodup) :
    (selected.length < st.numProblems →
      (run_battle_entry reg db chat selected).2.2 = RunEntryOutcome.aborted
      ∧ (run_battle_entry reg db chat selected).1 chat = none
      ∧ (run_battle_entry reg db chat selected).2.1 = db)
    ∧ (st.numProblems ≤ selected.length →
      (run_battle_entry reg db chat selected).2.2 = RunEntryOutcome.proceeded
      ∧ (∀ u ∈ st.participants.map Prod.fst,
          ((run_battle_entry reg db chat selected).2.1 u).battles = (db u).battles + 1)
      ∧ (∀ u, u ∉ st.participants.map Prod.fst →
          (run_battle_entry reg db chat selected).2.1 u = db u)) := by
  unfold run_battle_entry
  rw [hreg]
  constructor
  · intro hshort
    have hcond : selected.isEmpty = true ∨ selected.length < st.numProblems :=
      Or.inr hshort
    simp only [hcond, if_pos, Or.inr hshort]
    simp
  · intro hlong
    have hne : selected.isEmpty = false := by
      cases selected with
      | nil => simp at hlong; omega
      | cons a l => rfl
    have hcond : ¬ (selected.isEmpty = true ∨ selected.length < st.numProblems) := by
      rw [hne]
      simp
      omega
    simp only [if_neg hcond]
    refine ⟨trivial, ?_, ?_⟩
    · intro u hu
      rw [increment_battles_battles]
      rw [List.count_eq_one_of_mem hnodup hu]
    · intro u hu
      exact increment_battles_not_mem _ db u hu

def exP12 : Problem :=
  { contestId := some 1, index := some "A", name := some "p1", rating := some 1200 }

def exP13 : Problem :=
  { contestId := some 2, index := some "B", name := some "p2", rating := some 1300 }

def exP14 : Problem :=
  { contestId := some 3, index := some "C", name := some "p3", rating := some 1400 }

def db0 : PointsDB := fun _ => { pts := 0, battles := 0, firstSolves := 0 }

theorem C6_running_entry_witness :
    reg2 7 = some exBattle2 ∧ 1 ≤ exBattle2.numProblems
    ∧ ((run_battle_entry reg2 db0 7 [exP12, exP13, exP14]).2.1 1).battles
        = (db0 1).battles + 1 := by
  refine ⟨rfl, by decide, ?_⟩
  exact ((C6_running_entry reg2 db0 7 [exP12, exP13, exP14] exBattle2 rfl (by decide)
    (by decide)).2 (by decide)).2.1 1 (by decide)

lemma parse_create_args_ok_inv (args : List Int) (x : Nat × List Int)
    (hok : parse_create_args args = Except.ok x) :
    ∃ num rest, args = num :: rest ∧ 2 ≤ args.length ∧ 1 ≤ num ∧ num ≤ 10 ∧
      ∀ r ∈ rest, 800 ≤ r ∧ r ≤ 3500 := by
  match args with
  | [] => exact absurd hok (by simp [parse_create_args])
  | num :: rest =>
    refine ⟨num, rest, rfl, ?_⟩
    simp only [parse_create_args] at hok
    split_ifs at hok with h1 h2 h3
    have hall : ∀ r ∈ rest, 800 ≤ r ∧ r ≤ 3500 := by
      intro r hr
      by_contra hc
      exact h3 (List.any_eq_true.mpr ⟨r, hr, by simp at hc ⊢; omega⟩)
    refine ⟨by omega, by omega, by omega, hall⟩

/-- C8: a battle-creation request with invalid arguments (fewer than two
arguments, problem count outside 1-10, or a rating outside 800-3500) is
rejected: the reply is never the created reply and the battle registry is
left unchanged. -/
theorem C8_invalid_create_rejected (reg : Registry) (chat uid : Nat)
    (user : Option String) (args : List Int)
    (h : args.length < 2
      ∨ (∃ num rest, args = num :: rest ∧ (num < 1 ∨ 10 < num))
      ∨ (∃ num rest, args = num :: rest ∧ ∃ r ∈ rest, r < 800 ∨ 3500 < r)) :
    (cmd_createbattle reg chat uid user args).1 = reg
    ∧ (cmd_createbattle reg chat uid user args).2 ≠ CreateReply.created := by
  have hparse : ∀ x, parse_create_args args ≠ Except.ok x := by
    intro x hok
    obtain ⟨num, rest, heq, hlen, h1, h10, hall⟩ := parse_create_args_ok_inv args x hok
    subst heq
    rcases h with h | ⟨num2, rest2, heq2, hbad⟩ | ⟨num2, rest2, heq2, r, hr, hbad⟩
    · simp at h hlen; omega
    · cases heq2; omega
    · cases heq2
      have := hall r hr
      omega
  unfold cmd_createbattle
  by_cases hact : (reg chat).isSome
  · simp [hact]
  · simp only [hact, if_neg, Bool.false_eq_true, not_false_eq_true, if_false]
    match user with
    | none => exact ⟨rfl, by simp⟩
    | some handle =>
      cases hp : parse_create_args args with
      | error e => simp
      | ok x => exact absurd hp (hparse x)

def reg0 : Registry := fun _ => none

theorem C8_invalid_create_rejected_witness :
    (([(0 : Int), 1200].length < 2
      ∨ (∃ num rest, [(0 : Int), 1200] = num :: rest ∧ (num < 1 ∨ 10 < num))
      ∨ (∃ num rest, [(0 : Int), 1200] = num :: rest ∧ ∃ r ∈ rest, r < 800 ∨ 3500 < r)))
    ∧ (cmd_createbattle reg0 1 2 (some "h") [0, 1200]).1 = reg0 := by
  have hinst : ∃ num rest, [(0 : Int), 1200] = num :: rest ∧ ((num : Int) < 1 ∨ 10 < num) :=
    ⟨0, [1200], rfl, Or.inl (by norm_num)⟩
  exact ⟨Or.inr (Or.inl hinst),
    (C8_invalid_create_rejected reg0 1 2 (some "h") [0, 1200] (Or.inr (Or.inl hinst))).1⟩

lemma run_rounds_aux_cancel (events : Nat → RoundEvent) (i : Nat)
    (hc : events i = RoundEvent.cancelled) :
    ∀ (l : List Problem) (idx : Nat), idx ≤ i →
      (∀ j ∈ (run_rounds_aux events l idx).posted, j ≤ i)
      ∧ (∀ a ∈ (run_rounds_aux events l idx).awards, a.1 < i)
      ∧ (i < idx + l.length → (run_rounds_aux events l idx).finalized = false) := by
  intro l
  induction l with
  | nil =>
    intro idx hidx
    refine ⟨by simp [run_rounds_aux], by simp [run_rounds_aux], ?_⟩
    intro hlt
    simp at hlt
    omega
  | cons p rest ih =>
    intro idx hidx
    cases hev : events idx with
    | cancelled =>
      simp only [run_rounds_aux, hev]
      refine ⟨?_, by simp, fun _ => by simp⟩
      intro j hj
      simp at hj
      omega
    | skipped =>
      have hne : idx ≠ i := fun he => by rw [he, hc] at hev; cases hev
      have hlt : idx + 1 ≤ i := by omega
      obtain ⟨hp, ha, hf⟩ := ih (idx + 1) hlt
      simp only [run_rounds_aux, hev]
      refine ⟨?_, ha, ?_⟩
      · intro j hj
        rcases List.mem_cons.mp hj with h | h
        · omega
        · exact hp j h
      · intro hlen
        exact hf (by simp at hlen ⊢; omega)
    | won uid pts =>
      have hne : idx ≠ i := fun he => by rw [he, hc] at hev; cases hev
      have hlt : idx + 1 ≤ i := by omega
      obtain ⟨hp, ha, hf⟩ := ih (idx + 1) hlt
      simp only [run_rounds_aux, hev]
      refine ⟨?_, ?_, ?_⟩
      · intro j hj
        rcases List.mem_cons.mp hj with h | h
        · omega
        · exact hp j h
      · intro a haw
        rcases List.mem_cons.mp haw with h | h
        · rw [h]; simpa using by omega
        · exact ha a h
      · intro hlen
        exact hf (by simp at hlen ⊢; omega)

/-- C7: if the round-supervisor loop observes cancellation at round i, no
round after i is ever posted, no award is recorded for round i or any later
round, the battle is not finalized, and — the battle having been removed
from the registry by the cancellation — any later correct-solution claim for
that chat is rejected with the no-battle result. -/
theorem C7_cancel_stops_battle (events : Nat → RoundEvent) (problems : List Problem)
    (i : Nat) (hc : events i = RoundEvent.cancelled) (h1 : 1 ≤ i) :
    (∀ j ∈ (run_rounds events problems).posted, j ≤ i)
    ∧ (∀ a ∈ (run_rounds events problems).awards, a.1 < i)
    ∧ (i ≤ problems.length → (run_rounds events problems).finalized = false)
    ∧ (∀ (db : PointsDB) (uid ridx : Nat) (subs : List Submission),
        handle_finished_callback none db uid ridx subs
          = (none, db, FinishedResult.noBattle)) := by
  obtain ⟨hp, ha, hf⟩ := run_rounds_aux_cancel events i hc problems 1 h1
  exact ⟨hp, ha, fun hlen => hf (by omega), fun db uid ridx subs => rfl⟩

def exEvents7 : Nat → RoundEvent :=
  fun n => if n = 2 then RoundEvent.cancelled else RoundEvent.won 1 3

theorem C7_cancel_stops_battle_witness :
    exEvents7 2 = RoundEvent.cancelled
    ∧ (run_rounds exEvents7 [exP12, exP13, exP14]).finalized = false := by
  refine ⟨rfl, ?_⟩
  exact (C7_cancel_stops_battle exEvents7 [exP12, exP13, exP14] 2 rfl
    (by decide)).2.2.1 (by decide)

/-- C9: a correct-solution claim is checked against the battle's current
problem only: the result is entirely independent of the round index carried
by the button, and for a participant while no winner is recorded yet the
claim is accepted (as a win for the current problem's point value) exactly
when the fetched submissions contain an accepted submission for the current
problem.  In particular a stale Finished button from an earlier round can
win the current round. -/
theorem C9_claim_uses_current_problem :
    (∀ (battle : Option Battle) (db : PointsDB) (uid i j : Nat) (subs : List Submission),
      handle_finished_callback battle db uid i subs
        = handle_finished_callback battle db uid j subs)
    ∧ (∀ (st : Battle) (db : PointsDB) (uid ridx : Nat) (subs : List Submission)
        (handle : String) (cur : Problem),
        lookupHandle st.participants uid = some handle →
        st.roundWinner = none →
        st.currentProblem = some cur →
        ((handle_finished_callback (some st) db uid ridx subs).2.2
            = FinishedResult.won handle (rating_to_points (some (cur.rating.getD 0)))
          ↔ ∃ s ∈ subs, matchesProblem cur s)) := by
  constructor
  · intro battle db uid i j subs
    rfl
  · intro st db uid ridx subs handle cur hhandle hwin hcur
    simp only [handle_finished_callback, hhandle, hcur, hwin, Option.isSome_none,
      Bool.false_eq_true, if_false]
    cases hfind : subs.find? (matchesProblem cur) with
    | some s =>
      simp only [hfind]
      constructor
      · intro _
        exact ⟨s, List.mem_of_find?_eq_some hfind, List.find?_some hfind⟩
      · intro _
        trivial
    | none =>
      simp only [hfind]
      constructor
      · intro habs
        cases habs
      · rintro ⟨s, hs, hm⟩
        exact absurd hm (by simpa using List.find?_eq_none.mp hfind s hs)

def exP15 : Problem :=
  { contestId := some 10, index := some "B2", name := some "cur", rating := some 1500 }

def st9 : Battle :=
  { creator := 1, participants := [(1, "alice"), (2, "bob")], numProblems := 3,
    ratings := [1200, 1500, 1600], selectedProblems := [exP12, exP15],
    round := 2, status := BattleStatus.running, roundWinner := none,
    roundFinished := false, currentProblem := some exP15 }

def subs9 : List Submission := [{ problem := exP15, verdict := some "OK" }]

theorem C9_claim_uses_current_problem_witness :
    st9.round = 2
    ∧ (handle_finished_callback (some st9) db0 1 1 subs9).2.2
        = FinishedResult.won "alice" 5 := by
  refine ⟨rfl, ?_⟩
  exact (C9_claim_uses_current_problem.2 st9 db0 1 1 subs9 "alice" exP15 rfl rfl rfl).mpr
    ⟨{ problem := exP15, verdict := some "OK" }, by decide, by decide⟩

/-- C10: when the current problem's rating is missing or outside all bands
(for example 3100-3500, ratings accepted at creation), a verified claim is
still recorded as the round win — round_winner set, round finished, the
winner's first-solve count incremented — but the awarded points are 0. -/
theorem C10_out_of_band_win_zero_points (st : Battle) (db : PointsDB)
    (uid ridx : Nat) (subs : List Submission) (handle : String) (cur : Problem)
    (hhandle : lookupHandle st.participants uid = some handle)
    (hwin : st.roundWinner = none)
    (hcur : st.currentProblem = some cur)
    (hrat : cur.rating = none ∨ ∃ r, cur.rating = some r ∧ (r < 800 ∨ 3100 ≤ r))
    (hac : ∃ s ∈ subs, matchesProblem cur s) :
    (handle_finished_callback (some st) db uid ridx subs).2.2
      = FinishedResult.won handle 0
    ∧ (∃ st2, (handle_finished_callback (some st) db uid ridx subs).1 = some st2
        ∧ st2.roundWinner = some (uid, handle) ∧ st2.roundFinished = true)
    ∧ ((handle_finished_callback (some st) db uid ridx subs).2.1 uid).firstSolves
        = (db uid).firstSolves + 1
    ∧ ((handle_finished_callback (some st) db uid ridx subs).2.1 uid).pts
        = (db uid).pts := by
  have hpts : rating_to_points (some (cur.rating.getD 0)) = 0 := by
    rcases hrat with h | ⟨r, hr, hb⟩
    · rw [h]
      exact rating_to_points_out_of_band 0 (Or.inl (by norm_num))
    · rw [hr]
      exact rating_to_points_out_of_band r hb
  have hsome : (subs.find? (matchesProblem cur)).isSome := by
    obtain ⟨s, hs, hm⟩ := hac
    cases hfind : subs.find? (matchesProblem cur) with
    | some _ => rfl
    | none => exact absurd hm (by simpa using List.find?_eq_none.mp hfind s hs)
  obtain ⟨s, hfind⟩ := Option.isSome_iff_exists.mp hsome
  simp only [handle_finished_callback, hhandle, hcur, hwin, Option.isSome_none,
    Bool.false_eq_true, if_false, hfind, hpts]
  refine ⟨trivial, ⟨_, rfl, rfl, rfl⟩, ?_, ?_⟩
  · simp [add_points]
  · simp [add_points, hpts]

def raceInit : RaceState := { roundWinner := none, roundFinished := false, awards := [] }

def taskAlice : RaceTask := { uid := 1, handle := "alice", hasAC := true, pc := RacePC.ready }

def taskBob : RaceTask := { uid := 2, handle := "bob", hasAC := true, pc := RacePC.ready }

def racePartic : List (Nat × String) := [(1, "alice"), (2, "bob")]

/-- C1: the at-most-one-winner guarantee fails on the code.  Two concurrent
resolution tasks for the same round, both with accepted submissions, can both
pass the round_winner check before either resumes from the cf_user_status
await (schedule true,false,true,false); the code then records both as winner
(the second overwrites the first) and awards points twice for the one round.
Only under full serialization (schedule true,true,false,false) does the
second claim observe already-won, as the claim requires in all cases. -/
theorem C1_concurrent_claims_double_award :
    (race_run racePartic 3 [true, false, true, false] (raceInit, taskAlice, taskBob)).1.awards
        = [(1, 3), (2, 3)]
    ∧ (race_run racePartic 3 [true, false, true, false]
        (raceInit, taskAlice, taskBob)).2.2.pc = RacePC.doneWon
    ∧ (race_run racePartic 3 [true, false, true, false]
        (raceInit, taskAlice, taskBob)).1.roundWinner = some (2, "bob")
    ∧ (race_run racePartic 3 [true, true, false, false] (raceInit, taskAlice, taskBob)).1.awards
        = [(1, 3)]
    ∧ (race_run racePartic 3 [true, true, false, false]
        (raceInit, taskAlice, taskBob)).2.2.pc = RacePC.doneAlready := by
  decide

def pend0 : Pending := fun _ => none

/-- C3 counterexample: in chat 7 the battle's creator is user 1, user 2 is
not the creator, and no cancellation prompt is pending, yet user 2's
confirm-cancel callback deregisters the battle — so explicit cancellation is
neither creator-only nor confined to the confirmation step. -/
theorem C3_noncreator_confirm_counterexample :
    exBattle2.creator = 1
    ∧ (2 : Nat) ≠ 1
    ∧ pend0 7 = none
    ∧ (handle_confirm_cancel reg2 pend0 7 2).1 7 = none
    ∧ (handle_confirm_cancel reg2 pend0 7 2).2.2
        = some { exBattle2 with status := BattleStatus.cancelled, roundFinished := true } := by
  decide

/-- C3 amended: only the creator can initiate cancellation — a non-creator's
cancel command is rejected with no state change, the creator's merely records
the pending prompt — but the confirm callback cancels and deregisters the
battle (and clears the prompt) for any clicking user, pending prompt or not,
while declining leaves the battle registry unchanged and merely discards the
pending prompt. -/
theorem C3_cancel_confirmation_flow (reg : Registry) (pending : Pending)
    (chat uid msg_id : Nat) (st : Battle) (hreg : reg chat = some st) :
    (st.creator ≠ uid →
      cmd_cancelbattle reg pending chat uid msg_id
        = (reg, pending, CancelCmdReply.notCreator))
    ∧ (st.creator = uid →
      (cmd_cancelbattle reg pending chat uid msg_id).1 = reg
      ∧ (cmd_cancelbattle reg pending chat uid msg_id).2.1 chat = some msg_id
      ∧ (cmd_cancelbattle reg pending chat uid msg_id).2.2 = CancelCmdReply.promptSent)
    ∧ (∀ clicker, (handle_confirm_cancel reg pending chat clicker).1 chat = none
        ∧ (handle_confirm_cancel reg pending chat clicker).2.1 chat = none)
    ∧ ((handle_no_cancel reg pending chat).1 = reg
        ∧ (handle_no_cancel reg pending chat).2 chat = none) := by
  unfold cmd_cancelbattle handle_confirm_cancel handle_no_cancel
  rw [hreg]
  refine ⟨?_, ?_, ?_, rfl, by simp⟩
  · intro hne
    simp [hne]
  · intro heq
    simp [heq]
  · intro clicker
    exact ⟨by simp, by simp⟩

theorem C3_cancel_confirmation_flow_witness :
    reg2 7 = some exBattle2
    ∧ cmd_cancelbattle reg2 pend0 7 2 99 = (reg2, pend0, CancelCmdReply.notCreator) := by
  refine ⟨rfl, ?_⟩
  exact (C3_cancel_confirmation_flow reg2 pend0 7 2 99 exBattle2 rfl).1 (by decide)

lemma rangeLoop_mem (attempted : List ProbKey) (num : Nat) :
    ∀ (pool acc : List Problem) (q : Problem), q ∈ rangeLoop attempted num pool acc →
      q ∈ acc ∨ keyOf q ∉ attempted := by
  intro pool
  induction pool with
  | nil => intro acc q hq; exact Or.inl (by simpa [rangeLoop] using hq)
  | cons p rest ih =>
    intro acc q hq
    by_cases hm : keyOf p ∈ attempted
    · simp only [rangeLoop, if_pos hm] at hq
      exact ih acc q hq
    · simp only [rangeLoop, if_neg hm] at hq
      by_cases hn : num ≤ (acc ++ [p]).length
      · rw [if_pos hn] at hq
        rcases List.mem_append.mp hq with h | h
        · exact Or.inl h
        · simp at h; subst h; exact Or.inr hm
      · rw [if_neg hn] at hq
        rcases ih (acc ++ [p]) q hq with h | h
        · rcases List.mem_append.mp h with h2 | h2
          · exact Or.inl h2
          · simp at h2; subst h2; exact Or.inr hm
        · exact Or.inr h

lemma rangeLoop_length (attempted : List ProbKey) (num : Nat) :
    ∀ (pool acc : List Problem), acc.length < num →
      (rangeLoop attempted num pool acc).length ≤ num := by
  intro pool
  induction pool with
  | nil => intro acc h; simpa [rangeLoop] using Nat.le_of_lt h
  | cons p rest ih =>
    intro acc h
    by_cases hm : keyOf p ∈ attempted
    · simp only [rangeLoop, if_pos hm]
      exact ih acc h
    · simp only [rangeLoop, if_neg hm]
      by_cases hn : num ≤ (acc ++ [p]).length
      · rw [if_pos hn]
        simp at hn ⊢
        omega
      · rw [if_neg hn]
        apply ih
        simp at hn ⊢
        omega

lemma rangeLoop_append (attempted : List ProbKey) (num : Nat) :
    ∀ (pool acc : List Problem),
      ∃ s, rangeLoop attempted num pool acc = acc ++ s ∧ s.Sublist pool := by
  intro pool
  induction pool with
  | nil => intro acc; exact ⟨[], by simp [rangeLoop], List.nil_sublist []⟩
  | cons p rest ih =>
    intro acc
    by_cases hm : keyOf p ∈ attempted
    · obtain ⟨s, hs, hsub⟩ := ih acc
      exact ⟨s, by simp only [rangeLoop, if_pos hm]; exact hs, hsub.cons p⟩
    · by_cases hn : num ≤ (acc ++ [p]).length
      · refine ⟨[p], ?_, (List.nil_sublist rest).cons₂ p⟩
        simp only [rangeLoop, if_neg hm, if_pos hn]
      · obtain ⟨s, hs, hsub⟩ := ih (acc ++ [p])
        refine ⟨p :: s, ?_, hsub.cons₂ p⟩
        simp only [rangeLoop, if_neg hm, if_neg hn, hs, List.append_assoc,
          List.singleton_append]

lemma firstUnattempted_spec (attempted : List ProbKey) :
    ∀ (pool : List Problem) (p : Problem), firstUnattempted attempted pool = some p →
      p ∈ pool ∧ keyOf p ∉ attempted := by
  intro pool
  induction pool with
  | nil => intro p h; cases h
  | cons q rest ih =>
    intro p h
    by_cases hm : keyOf q ∈ attempted
    · simp only [firstUnattempted, if_pos hm] at h
      obtain ⟨h1, h2⟩ := ih p h
      exact ⟨List.mem_cons_of_mem _ h1, h2⟩
    · simp only [firstUnattempted, if_neg hm] at h
      cases h
      exact ⟨List.mem_cons_self _ _, hm⟩

lemma targetLoop_mem (problems : List Problem) (attempted : List ProbKey) (num : Nat)
    (shuffle : Nat → List Problem → List Problem) :
    ∀ (rs : List Int) (k : Nat) (acc : List Problem) (q : Problem),
      q ∈ targetLoop problems attempted num shuffle rs k acc →
      q ∈ acc ∨ keyOf q ∉ attempted := by
  intro rs
  induction rs with
  | nil => intro k acc q hq; exact Or.inl (by simpa [targetLoop] using hq)
  | cons r rest ih =>
    intro k acc q hq
    simp only [targetLoop] at hq
    cases hfu : firstUnattempted attempted
        (shuffle k (problems.filter (inWindow (r - 50) (r + 50)))) with
    | some p =>
      simp only [hfu] at hq
      by_cases hn : num ≤ (acc ++ [p]).length
      · rw [if_pos hn] at hq
        rcases List.mem_append.mp hq with h | h
        · exact Or.inl h
        · simp at h; subst h
          exact Or.inr (firstUnattempted_spec attempted _ _ hfu).2
      · rw [if_neg hn] at hq
        rcases ih (k + 1) (acc ++ [p]) q hq with h | h
        · rcases List.mem_append.mp h with h2 | h2
          · exact Or.inl h2
          · simp at h2; subst h2
            exact Or.inr (firstUnattempted_spec attempted _ _ hfu).2
        · exact Or.inr h
    | none =>
      simp only [hfu] at hq
      by_cases hn : num ≤ acc.length
      · rw [if_pos hn] at hq
        exact Or.inl hq
      · rw [if_neg hn] at hq
        exact ih (k + 1) acc q hq

lemma targetLoop_length (problems : List Problem) (attempted : List ProbKey) (num : Nat)
    (shuffle : Nat → List Problem → List Problem) :
    ∀ (rs : List Int) (k : Nat) (acc : List Problem), acc.length < num →
      (targetLoop problems attempted num shuffle rs k acc).length ≤ num := by
  intro rs
  induction rs with
  | nil => intro k acc h; simpa [targetLoop] using Nat.le_of_lt h
  | cons r rest ih =>
    intro k acc h
    simp only [targetLoop]
    cases hfu : firstUnattempted attempted
        (shuffle k (problems.filter (inWindow (r - 50) (r + 50)))) with
    | some p =>
      by_cases hn : num ≤ (acc ++ [p]).length
      · rw [if_pos hn]
        simp at hn ⊢
        omega
      · rw [if_neg hn]
        apply ih
        simp at hn ⊢
        omega
    | none =>
      by_cases hn : num ≤ acc.length
      · rw [if_pos hn]
        omega
      · rw [if_neg hn]
        exact ih (k + 1) acc h

lemma mem_buildAttempted (results : List (Option (List Submission)))
    (subs : List Submission) (s : Submission)
    (hr : some subs ∈ results) (hs : s ∈ subs) :
    keyOf s.problem ∈ buildAttempted results := by
  induction results with
  | nil => cases hr
  | cons r rest ih =>
    rcases List.mem_cons.mp hr with h | h
    · subst h
      simp only [buildAttempted]
      exact List.mem_append.mpr (Or.inl (List.mem_map.mpr ⟨s, hs, rfl⟩))
    · cases r with
      | some subs2 =>
        simp only [buildAttempted]
        exact List.mem_append.mpr (Or.inr (ih h))
      | none =>
        simp only [buildAttempted]
        exact ih h

/-- C2 amended: for a requested count of at least 1 and any shuffle outcomes,
the selector never returns a problem whose key is in the attempted set (which
contains every problem any participant ever submitted to) and returns at most
the requested number of problems, in both modes; in range mode the result
additionally has no duplicate keys whenever the catalog has none.  (In
per-round-target mode duplicates are possible — see the counterexample.) -/
theorem C2_selector_guarantees (problems : List Problem)
    (results : List (Option (List Submission))) (ratings : List Int) (num : Nat)
    (shuffle : Nat → List Problem → List Problem) (hnum : 1 ≤ num) :
    (∀ p ∈ select_problems_for_battle problems results ratings num shuffle,
        keyOf p ∉ buildAttempted results)
    ∧ (∀ (subs : List Submission) (s : Submission), some subs ∈ results → s ∈ subs →
        keyOf s.problem ∈ buildAttempted results)
    ∧ (select_problems_for_battle problems results ratings num shuffle).length ≤ num
    ∧ ((∀ (k : Nat) (l : List Problem), List.Perm (shuffle k l) l) →
        ratings.length = 2 → 2 < num → (problems.map keyOf).Nodup →
        ((select_problems_for_battle problems results ratings num shuffle).map keyOf).Nodup) := by
  refine ⟨?_, fun subs s h1 h2 => mem_buildAttempted results subs s h1 h2, ?_, ?_⟩
  · by_cases hp : problems = []
    · simp [select_problems_for_battle, hp]
    · simp only [select_problems_for_battle, if_neg hp]
      by_cases hmode : ratings.length = 2 ∧ 2 < num
      · rw [if_pos hmode]
        intro p hsel
        rcases rangeLoop_mem (buildAttempted results) num _ [] p hsel with h | h
        · simp at h
        · exact h
      · rw [if_neg hmode]
        intro p hsel
        rcases targetLoop_mem problems (buildAttempted results) num shuffle
            ratings 0 [] p hsel with h | h
        · simp at h
        · exact h
  · by_cases hp : problems = []
    · simp [select_problems_for_battle, hp]
    · simp only [select_problems_for_battle, if_neg hp]
      by_cases hmode : ratings.length = 2 ∧ 2 < num
      · rw [if_pos hmode]
        exact rangeLoop_length (buildAttempted results) num _ [] (by simpa using hnum)
      · rw [if_neg hmode]
        exact targetLoop_length problems (buildAttempted results) num shuffle
          ratings 0 [] (by simpa using hnum)
  · intro hperm h2 hlt hnd
    by_cases hp : problems = []
    · simp [select_problems_for_battle, hp]
    · simp only [select_problems_for_battle, if_neg hp, if_pos (And.intro h2 hlt)]
      obtain ⟨s, hs, hsub⟩ := rangeLoop_append (buildAttempted results) num
        (shuffle 0 (problems.filter
          (inWindow (listMin ratings - 50) (listMax ratings + 50)))) []
      rw [hs, List.nil_append]
      have h1 : ((problems.filter
          (inWindow (listMin ratings - 50) (listMax ratings + 50))).map keyOf).Nodup :=
        List.Nodup.sublist (List.Sublist.map keyOf (List.filter_sublist problems)) hnd
      have hpoolnd : ((shuffle 0 (problems.filter
          (inWindow (listMin ratings - 50) (listMax ratings + 50)))).map keyOf).Nodup :=
        (List.Perm.nodup_iff (List.Perm.map keyOf (hperm 0 _))).mpr h1
      exact List.Nodup.sublist (List.Sublist.map keyOf hsub) hpoolnd

def exDupP : Problem :=
  { contestId := some 5, index := some "E", name := some "dup", rating := some 1200 }

def idShuffle : Nat → List Problem → List Problem := fun _ l => l

/-- C2 counterexample: catalog [exDupP], no participant submissions, rating
spec [1200, 1200] with requested count 2 (per-round-target mode): the
selector picks the same problem for both rounds, so its result contains a
duplicate problem identifier, refuting the no-duplicates part of the claim. -/
theorem C2_duplicate_counterexample :
    select_problems_for_battle [exDupP] [] [1200, 1200] 2 idShuffle = [exDupP, exDupP]
    ∧ ¬ ((select_problems_for_battle [exDupP] [] [1200, 1200] 2 idShuffle).map
          keyOf).Nodup := by
  constructor
  · rfl
  · decide

theorem C2_selector_guarantees_witness :
    1 ≤ 3
    ∧ (select_problems_for_battle [exP12, exP13, exP14] [] [1200, 1400] 3
        idShuffle).length ≤ 3 := by
  refine ⟨by decide, ?_⟩
  exact (C2_selector_guarantees [exP12, exP13, exP14] [] [1200, 1400] 3 idShuffle
    (by decide)).2.2.1

def exP32 : Problem :=
  { contestId := some 11, index := some "D", name := some "hard", rating := some 3200 }

def st10 : Battle :=
  { creator := 1, participants := [(1, "alice"), (2, "bob")], numProblems := 2,
    ratings := [3200, 3300], selectedProblems := [exP32],
    round := 1, status := BattleStatus.running, roundWinner := none,
    roundFinished := false, currentProblem := some exP32 }

def subs10 : List Submission := [{ problem := exP32, verdict := some "OK" }]

theorem C10_out_of_band_win_zero_points_witness :
    st10.currentProblem = some exP32
    ∧ ((handle_finished_callback (some st10) db0 1 1 subs10).2.1 1).firstSolves
        = (db0 1).firstSolves + 1
    ∧ (handle_finished_callback (some st10) db0 1 1 subs10).2.2
        = FinishedResult.won "alice" 0 := by
  have h := C10_out_of_band_win_zero_points st10 db0 1 1 subs10 "alice" exP32 rfl rfl rfl
    (Or.inr ⟨3200, rfl, Or.inr (by norm_num)⟩)
    ⟨{ problem := exP32, verdict := some "OK" }, by decide, by decide⟩
  exact ⟨rfl, h.2.2.1, h.1⟩
